import Mathlib

/-!
Shallow embedding of the Expense-Manager backend (NestJS/Mongoose service
layer) for verification of its budget-ledger, alert, and advisory-service
behaviour.

Conventions of the embedding:
* Money amounts, budgets and spending are rationals (`ℚ`); the JavaScript
  arithmetic on them used by the services is `+`, `-`, `Math.max`, and
  comparisons, all exact on the values involved.
* JavaScript division can produce `Infinity`/`NaN` (division by zero is not
  an error in JS); `JsNum` models the result of the utilization expressions
  `(currentSpending / budget) * 100` faithfully, including the comparison
  semantics of `>=` and `<` against `NaN` and infinities.
* Mongo documents live in a `Store` (a list of teams and a list of
  expenses); `findById` / `save` / `findByIdAndDelete` are lookup/replace/
  remove by id.  Persistence itself is assumed infallible.
* `await emailService.send…` calls never throw: the email service wraps its
  whole body in try/catch and returns a `success` flag, which the callers
  ignore.  Delivery success is an environment flag `EmailEnv.sendOk`; every
  dispatched (attempted) email is recorded as an event together with the
  success flag it returned.
* Wall-clock values (`approvedAt`, `createdAt`) are not modelled; expense
  `date` is an integer timestamp in milliseconds.
-/

/-- Result of a JavaScript floating-point expression as used in the
utilization computations: a finite value, `Infinity`, `-Infinity`, or
`NaN`. -/
inductive JsNum where
  | num (q : ℚ)
  | posInf
  | negInf
  | nan
deriving DecidableEq, Repr

/-- JavaScript division `a / b` on numbers: for `b ≠ 0` the exact quotient,
for `b = 0` it is `Infinity`, `-Infinity` or `NaN` depending on the sign of
`a` (never a thrown error). -/
def jsDivQ (a b : ℚ) : JsNum :=
  if b ≠ 0 then .num (a / b)
  else if a > 0 then .posInf
  else if a < 0 then .negInf
  else .nan

/-- JavaScript multiplication of a possibly non-finite number by a finite
constant (used for the `* 100` step of utilization). -/
def JsNum.mulQ : JsNum → ℚ → JsNum
  | .num q, c => .num (q * c)
  | .posInf, c => if c > 0 then .posInf else if c < 0 then .negInf else .nan
  | .negInf, c => if c > 0 then .negInf else if c < 0 then .posInf else .nan
  | .nan, _ => .nan

/-- JavaScript comparison `x >= c`: `NaN` compares false, `Infinity` true. -/
def JsNum.geQ : JsNum → ℚ → Bool
  | .num q, c => decide (q ≥ c)
  | .posInf, _ => true
  | .negInf, _ => false
  | .nan, _ => false

/-- JavaScript comparison `x < c`: `NaN` compares false. -/
def JsNum.ltQ : JsNum → ℚ → Bool
  | .num q, c => decide (q < c)
  | .posInf, _ => false
  | .negInf, _ => true
  | .nan, _ => false

/-- The unguarded utilization expression `(spending / budget) * 100` as it
appears in `TeamService.checkAndSendBudgetAlerts`, `TeamService.
getBudgetStatus` and `ExpenseService.update`, under JavaScript number
semantics. -/
def utilizationJs (spending budget : ℚ) : JsNum :=
  (jsDivQ spending budget).mulQ 100

/-- Expense lifecycle status (enum `ExpenseStatus`). -/
inductive ExpenseStatus where
  | pending
  | approved
  | rejected
deriving DecidableEq, Repr

/-- Name/email pair (used for `submittedBy`, `approvedBy` and the bulk DTO
approver; `approvedAt` timestamps are not modelled). -/
structure Approver where
  name : String
  email : String
deriving DecidableEq, Repr

/-- Budget alert latches on a team (`budgetAlerts` subdocument). -/
structure BudgetAlerts where
  eightyPercentSent : Bool
  hundredPercentSent : Bool
deriving DecidableEq, Repr

/-- A Team document (schema `team.schema.ts`): members are not modelled
(they only feed email recipient lists). -/
structure Team where
  id : Nat
  name : String
  budget : ℚ
  currentSpending : ℚ
  budgetAlerts : BudgetAlerts
deriving DecidableEq, Repr

/-- An Expense document (schema `expense.schema.ts`); `team` is the owning
team's id (the populated-object case in the source resolves back to the
same id), `category` and `aiSuggestedCategory` are the enum strings. -/
structure Expense where
  id : Nat
  team : Nat
  description : String
  amount : ℚ
  category : String
  aiSuggestedCategory : Option String
  status : ExpenseStatus
  submittedBy : Option Approver
  approvedBy : Option Approver
  date : ℤ
  isDuplicate : Bool
  duplicateReason : Option String
deriving DecidableEq, Repr

/-- The document store backing the two Mongoose models. -/
structure Store where
  teams : List Team
  expenses : List Expense
deriving DecidableEq, Repr

/-- Model `teamModel.findById`. -/
def Store.findTeam (s : Store) (id : Nat) : Option Team :=
  s.teams.find? (fun t => t.id == id)

/-- Model `expenseModel.findById`. -/
def Store.findExpense (s : Store) (id : Nat) : Option Expense :=
  s.expenses.find? (fun e => e.id == id)

/-- Model `team.save()`: replace the team document with the same id. -/
def Store.saveTeam (s : Store) (t : Team) : Store :=
  { s with teams := s.teams.map (fun u => if u.id == t.id then t else u) }

/-- Model `expense.save()`: replace the expense document with the same id. -/
def Store.saveExpense (s : Store) (e : Expense) : Store :=
  { s with expenses := s.expenses.map (fun u => if u.id == e.id then e else u) }

/-- Model `new expenseModel(...).save()` for a fresh document. -/
def Store.addExpense (s : Store) (e : Expense) : Store :=
  { s with expenses := s.expenses ++ [e] }

/-- Model `expenseModel.findByIdAndDelete`. -/
def Store.deleteExpense (s : Store) (id : Nat) : Store :=
  { s with expenses := s.expenses.filter (fun e => e.id != id) }

/-- Errors thrown by the service layer (`NotFoundException`,
`BadRequestException`). -/
inductive ServiceError where
  | notFound (msg : String)
  | badRequest (msg : String)
deriving DecidableEq, Repr

/-- The two budget-alert kinds. -/
inductive AlertType where
  | eighty_percent
  | hundred_percent
deriving DecidableEq, Repr

/-- Outbound email events. Budget alerts record the success flag returned
by `EmailService.sendBudgetAlert` (delivery may fail without throwing). -/
inductive Email where
  | approvalNotification (expenseId : Nat) (approved : Bool)
  | budgetAlert (teamId : Nat) (alert : AlertType) (delivered : Bool)
deriving DecidableEq, Repr

/-- Environment for the email service: whether the `try` body of a send
succeeds (Resend configured and the provider accepts the message). -/
structure EmailEnv where
  sendOk : Bool
deriving DecidableEq, Repr

/-- Result value of the email-service methods: a success flag, never a
thrown error (the whole method body is wrapped in try/catch which converts
any failure, including an unconfigured API key or exhausted retries, into
`success: false`). -/
structure SendResult where
  success : Bool
deriving DecidableEq, Repr

namespace EmailService

/-- Model of `EmailService.sendBudgetAlert`: records the dispatch attempt
and reports success iff the environment delivers; it never throws. -/
def sendBudgetAlert (env : EmailEnv) (team : Team) (alertType : AlertType) :
    SendResult × Email :=
  ({ success := env.sendOk }, Email.budgetAlert team.id alertType env.sendOk)

/-- Model of `EmailService.sendExpenseApprovalNotification` (same
never-throws contract; the event is all the callers can observe). -/
def sendExpenseApprovalNotification (env : EmailEnv) (expense : Expense)
    (approved : Bool) : SendResult × Email :=
  ({ success := env.sendOk }, Email.approvalNotification expense.id approved)

end EmailService

/-- The Team-schema virtual `budgetUtilization`: the one utilization site
that guards against a zero budget
(`this.budget > 0 ? (this.currentSpending / this.budget) * 100 : 0`). -/
def budgetUtilization (t : Team) : ℚ :=
  if t.budget > 0 then t.currentSpending / t.budget * 100 else 0

namespace TeamService

/-- Model of `TeamService.calculateCurrentSpending`: find all `approved`
expenses of the team and sum their amounts with a running total. -/
def calculateCurrentSpending (s : Store) (teamId : Nat) : ℚ :=
  let approvedExpenses :=
    s.expenses.filter (fun e => e.status == ExpenseStatus.approved && e.team == teamId)
  approvedExpenses.foldl (fun total e => total + e.amount) 0

/-- Model of the private `TeamService.checkAndSendBudgetAlerts` (called for
each team by `TeamService.findAll`).  Two independent `if`s: the 100%%
check, then the 80%% check which additionally requires `utilization < 100`.
`sendBudgetAlert` never throws (it returns a success flag the caller
ignores), so the `catch` branches are unreachable for delivery failures and
the latch assignments always execute after a dispatch attempt. -/
def checkAndSendBudgetAlerts (env : EmailEnv) (team : Team) : Team × List Email :=
  let utilization := utilizationJs team.currentSpending team.budget
  let step1 :=
    if utilization.geQ 100 && !team.budgetAlerts.hundredPercentSent then
      let sent := EmailService.sendBudgetAlert env team .hundred_percent
      ({ team with budgetAlerts := { team.budgetAlerts with hundredPercentSent := true } },
        [sent.2])
    else (team, [])
  let step2 :=
    if utilization.geQ 80 && !step1.1.budgetAlerts.eightyPercentSent && utilization.ltQ 100 then
      let sent := EmailService.sendBudgetAlert env step1.1 .eighty_percent
      ({ step1.1 with budgetAlerts := { step1.1.budgetAlerts with eightyPercentSent := true } },
        [sent.2])
    else (step1.1, [])
  (step2.1, step1.2 ++ step2.2)

/-- Model of `TeamService.findAll`: fetch every team, run
`checkAndSendBudgetAlerts` on each (saving any latch changes), and return
the (mutated) team documents.  The `createdAt` sort only permutes the
result order and is not modelled; each team is processed independently. -/
def findAll (env : EmailEnv) (s : Store) : Store × List Team × List Email :=
  let processed := s.teams.map (checkAndSendBudgetAlerts env)
  ({ s with teams := processed.map Prod.fst },
    processed.map Prod.fst,
    (processed.map Prod.snd).flatten)

end TeamService

/-- The `if / else if` alert block that appears verbatim both in
`ExpenseService.update` (after incrementing the team's spending) and in
`TeamService.getBudgetStatus` (after recomputing it): send the 100%% alert
and latch it, else send the 80%% alert and latch it.  No `< 100` guard on
the 80%% branch here, and again the latch is set right after the dispatch
attempt regardless of its success flag. -/
def budgetAlertChain (env : EmailEnv) (team : Team) : Team × List Email :=
  let utilization := utilizationJs team.currentSpending team.budget
  if utilization.geQ 100 && !team.budgetAlerts.hundredPercentSent then
    let sent := EmailService.sendBudgetAlert env team .hundred_percent
    ({ team with budgetAlerts := { team.budgetAlerts with hundredPercentSent := true } },
      [sent.2])
  else if utilization.geQ 80 && !team.budgetAlerts.eightyPercentSent then
    let sent := EmailService.sendBudgetAlert env team .eighty_percent
    ({ team with budgetAlerts := { team.budgetAlerts with eightyPercentSent := true } },
      [sent.2])
  else (team, [])

/-- The response of `TeamService.getBudgetStatus` (built before the alert
block runs, so `eightyPercentSent`/`hundredPercentSent` are the latch
values at entry). -/
structure BudgetStatus where
  teamId : Nat
  teamName : String
  budget : ℚ
  currentSpending : ℚ
  remainingBudget : ℚ
  utilizationPercentage : JsNum
  isOverBudget : Bool
  isNearBudget : Bool
  eightyPercentSent : Bool
  hundredPercentSent : Bool
deriving DecidableEq, Repr

namespace TeamService

/-- Model of `TeamService.getBudgetStatus`: recompute the spending from the
approved expenses, overwrite and save the cached value on the team, build
the status payload (with unguarded JS divisions), then run the alert
`if / else if` block and save any latch change. -/
def getBudgetStatus (env : EmailEnv) (s : Store) (id : Nat) :
    Except ServiceError (Store × BudgetStatus × List Email) :=
  match s.findTeam id with
  | none => .error (.notFound "Team not found")
  | some team =>
    let currentSpending := calculateCurrentSpending s id
    let team1 := { team with currentSpending := currentSpending }
    let s1 := s.saveTeam team1
    let budgetStatus : BudgetStatus :=
      { teamId := team1.id
        teamName := team1.name
        budget := team1.budget
        currentSpending := currentSpending
        remainingBudget := team1.budget - currentSpending
        utilizationPercentage := utilizationJs currentSpending team1.budget
        isOverBudget := decide (currentSpending > team1.budget)
        isNearBudget := (jsDivQ currentSpending team1.budget).geQ (4 / 5)
        eightyPercentSent := team1.budgetAlerts.eightyPercentSent
        hundredPercentSent := team1.budgetAlerts.hundredPercentSent }
    let chained := budgetAlertChain env team1
    .ok (s1.saveTeam chained.1, budgetStatus, chained.2)

end TeamService

/-- The `UpdateExpenseDto` (all fields optional). -/
structure UpdateDto where
  description : Option String
  amount : Option ℚ
  category : Option String
  date : Option ℤ
  status : Option ExpenseStatus
  approvedBy : Option Approver
deriving DecidableEq, Repr

/-- A DTO with every field absent, to be overridden per test. -/
def UpdateDto.empty : UpdateDto :=
  { description := none, amount := none, category := none, date := none,
    status := none, approvedBy := none }

/-- The field-edit section of `ExpenseService.update`.  JS truthiness:
`description` and `category` are skipped when absent or the empty string,
`amount` is applied whenever present (`!== undefined`, so 0 is applied),
`date` and `status` when present (their string encodings are non-empty). -/
def applyFieldEdits (dto : UpdateDto) (e : Expense) : Expense :=
  let e := match dto.description with
    | some d => if d = "" then e else { e with description := d }
    | none => e
  let e := match dto.amount with
    | some a => { e with amount := a }
    | none => e
  let e := match dto.category with
    | some c => if c = "" then e else { e with category := c }
    | none => e
  let e := match dto.date with
    | some d => { e with date := d }
    | none => e
  match dto.status with
  | some st => { e with status := st }
  | none => e

/-- The approver recorded by `ExpenseService.update`: each field falls back
(`||`) to the system identity when absent or empty. -/
def approverOrSystem (a : Option Approver) : Approver :=
  { name := match a with
      | some x => if x.name = "" then "System" else x.name
      | none => "System"
    email := match a with
      | some x => if x.email = "" then "system@expensemanagement.com" else x.email
      | none => "system@expensemanagement.com" }

/-- Result of `ExpenseService.update`: the post-state of the store, the
saved expense that is returned, and the emails dispatched. -/
structure UpdateResult where
  store : Store
  expense : Expense
  emails : List Email
deriving DecidableEq, Repr

namespace ExpenseService

/-- Model of `ExpenseService.update`.  In source order: load the expense
(404 if absent), remember `oldStatus`, apply field edits, set `approvedBy`
when a status different from `oldStatus` and equal to approved/rejected is
requested, save, send the decision notification under the same condition,
then the two ledger blocks: (1) if the request sets status to approved and
the expense was not approved, add the (updated) amount to the team's
spending and run the alert chain; (2) if the expense was approved and the
requested status is not `'approved'` — which also holds when the request
carries no status at all — subtract the (updated) amount, clamped at 0. -/
def update (env : EmailEnv) (s : Store) (id : Nat) (dto : UpdateDto) :
    Except ServiceError UpdateResult :=
  match s.findExpense id with
  | none => .error (.notFound "Expense not found")
  | some expense =>
    let oldStatus := expense.status
    let e1 := applyFieldEdits dto expense
    let e2 :=
      if dto.status ≠ some oldStatus ∧
          (dto.status = some .approved ∨ dto.status = some .rejected) then
        { e1 with approvedBy := some (approverOrSystem dto.approvedBy) }
      else e1
    let s1 := s.saveExpense e2
    let emails0 :=
      if dto.status ≠ some oldStatus ∧
          (dto.status = some .approved ∨ dto.status = some .rejected) then
        [(EmailService.sendExpenseApprovalNotification env e2
            (dto.status = some ExpenseStatus.approved)).2]
      else ([] : List Email)
    let approvedStep :=
      if dto.status = some ExpenseStatus.approved ∧ oldStatus ≠ ExpenseStatus.approved then
        match s1.findTeam e2.team with
        | some team =>
          let team1 := { team with currentSpending := team.currentSpending + e2.amount }
          let s2 := s1.saveTeam team1
          let chained := budgetAlertChain env team1
          (s2.saveTeam chained.1, chained.2)
        | none => (s1, [])
      else (s1, [])
    let s3 :=
      if oldStatus = ExpenseStatus.approved ∧ dto.status ≠ some ExpenseStatus.approved then
        match approvedStep.1.findTeam e2.team with
        | some team =>
          approvedStep.1.saveTeam
            { team with currentSpending := max 0 (team.currentSpending - e2.amount) }
        | none => approvedStep.1
      else approvedStep.1
    .ok { store := s3, expense := e2, emails := emails0 ++ approvedStep.2 }

/-- Model of `ExpenseService.remove`: load the expense (404 if absent); if
it is approved, subtract its amount from the team's spending (clamped at
0); then delete the document. -/
def remove (s : Store) (id : Nat) : Except ServiceError Store :=
  match s.findExpense id with
  | none => .error (.notFound "Expense not found")
  | some expense =>
    let s1 :=
      if expense.status = ExpenseStatus.approved then
        match s.findTeam expense.team with
        | some team =>
          s.saveTeam { team with currentSpending := max 0 (team.currentSpending - expense.amount) }
        | none => s
      else s
    .ok (s1.deleteExpense id)

end ExpenseService

/-- The bulk action kind (`action ∈ {approve, reject}`). -/
inductive BulkActionKind where
  | approve
  | reject
deriving DecidableEq, Repr

/-- The `BulkActionDto`. -/
structure BulkActionDto where
  expenseIds : List Nat
  action : BulkActionKind
  approvedBy : Approver
deriving DecidableEq, Repr

namespace ExpenseService

/-- One iteration of the `expenses.map(async (expense) => ...)` closure in
`ExpenseService.bulkAction`: set the new status, always overwrite
`approvedBy`, save, send the notification, and — only when approving an
expense that was not already approved — add its amount to the team's
spending.  There is no ledger branch for `reject`. -/
def bulkStep (env : EmailEnv) (newStatus : ExpenseStatus) (approvedBy : Approver)
    (acc : Store × List Email) (expense : Expense) : Store × List Email :=
  let oldStatus := expense.status
  let e1 := { expense with
    status := newStatus
    approvedBy := some { name := approvedBy.name, email := approvedBy.email } }
  let s1 := acc.1.saveExpense e1
  let emails1 := acc.2 ++
    [(EmailService.sendExpenseApprovalNotification env e1
        (newStatus = ExpenseStatus.approved)).2]
  if newStatus = ExpenseStatus.approved ∧ oldStatus ≠ ExpenseStatus.approved then
    match s1.findTeam e1.team with
    | some team =>
      (s1.saveTeam { team with currentSpending := team.currentSpending + e1.amount }, emails1)
    | none => (s1, emails1)
  else (s1, emails1)

/-- Model of `ExpenseService.bulkAction`: resolve the ids (the whole batch
fails when `find({_id: {$in: ids}})` returns fewer documents than ids were
given), then run `bulkStep` over the fetched documents.  The source fires
the per-expense closures with `Promise.all`; the embedding runs them in
list order, which the per-item claims do not distinguish. -/
def bulkAction (env : EmailEnv) (s : Store) (dto : BulkActionDto) :
    Except ServiceError (Store × List Email × Nat) :=
  let newStatus :=
    if dto.action = BulkActionKind.approve then ExpenseStatus.approved
    else ExpenseStatus.rejected
  let expenses := s.expenses.filter (fun e => dto.expenseIds.contains e.id)
  if expenses.length ≠ dto.expenseIds.length then
    .error (.badRequest "Some expenses not found")
  else
    let result := expenses.foldl (bulkStep env newStatus dto.approvedBy) (s, [])
    .ok (result.1, result.2, expenses.length)

end ExpenseService

/-- Outcome of one attempt to call the OpenAI provider from inside
`AiService.withRetry`: a reply carrying the (typed) message content, an
error the code classifies as a rate limit (status 429 etc.), or any other
thrown error. -/
inductive AiCallOutcome (α : Type) where
  | reply (content : α)
  | rateLimitError
  | otherError (msg : String)

/-- One provider interaction as seen by `AiService.withRetry`: whether the
cooldown window is open at entry (`this.isRateLimited && now <
this.rateLimitResetTime`), and the outcome each successive attempt would
get.  The sleeps, jitter and the mutation of the cooldown state are timing
behaviour that the returned value does not depend on. -/
structure ProviderRun (α : Type) where
  inCooldown : Bool
  attempts : Nat → AiCallOutcome α

/-- The retry loop of `AiService.withRetry` (attempt counter runs from 0 to
`maxRetries`): a reply returns it; a rate-limit error retries unless this
was the last attempt, in which case it is thrown; any other error is thrown
at once.  The fuel argument starts at `maxRetries + 1` so the trailing
`throw new Error('Max retries exceeded')` is unreachable, as in the
source. -/
def withRetryGo {α : Type} (outcomes : Nat → AiCallOutcome α) (maxRetries : Nat) :
    Nat → Nat → Except String α
  | _, 0 => .error "Max retries exceeded"
  | attempt, fuel + 1 =>
    match outcomes attempt with
    | .reply c => .ok c
    | .rateLimitError =>
      if attempt = maxRetries then .error "rate limit hit on last attempt"
      else withRetryGo outcomes maxRetries (attempt + 1) fuel
    | .otherError msg => .error msg

namespace AiService

/-- Model of `AiService.withRetry` with its default `maxRetries = 2`: when
the cooldown window is open the call short-circuits with the
temporarily-unavailable error; otherwise the retry loop runs. -/
def withRetry {α : Type} (run : ProviderRun α) : Except String α :=
  if run.inCooldown then
    .error "AI service temporarily unavailable due to rate limits"
  else withRetryGo run.attempts 2 0 3

end AiService

/-- The `ExpenseCategory` enum values, as listed in
`Object.values(ExpenseCategory)`. -/
def validCategories : List String :=
  ["Travel", "Meals", "Office Supplies", "Software", "Marketing", "Training",
    "Equipment", "Utilities", "Other"]

/-- Return value of `AiService.suggestExpenseCategory`: a success flag with
an optional category — never a thrown error. -/
structure CategorySuggestion where
  success : Bool
  category : Option String
  error : Option String
deriving DecidableEq, Repr

/-- Environment of one `AiService` call: whether the OpenAI client is
configured, and the provider interaction the call would see. -/
structure AiCallEnv (α : Type) where
  configured : Bool
  run : ProviderRun α

namespace AiService

/-- Model of `AiService.suggestExpenseCategory`: unconfigured client or any
error thrown out of the retry/queue stack (cooldown short-circuit,
exhausted retries, other failures) is caught by the surrounding try/catch
and becomes `success: false`; a reply is accepted only when its trimmed
content is one of the enum values.  The reply content is the message
string. -/
def suggestExpenseCategory (env : AiCallEnv String) : CategorySuggestion :=
  if !env.configured then
    { success := false, category := none, error := some "AI service not configured" }
  else
    match withRetry env.run with
    | .error e => { success := false, category := none, error := some e }
    | .ok content =>
      let suggestedCategory := content.trim
      if suggestedCategory ≠ "" && validCategories.contains suggestedCategory then
        { success := true, category := some suggestedCategory, error := none }
      else
        { success := false, category := none, error := some "Invalid category suggested by AI" }

end AiService

/-- The parsed JSON body a duplicate-detection reply is expected to carry. -/
structure DupReply where
  isDuplicate : Bool
  confidence : ℚ
  reason : String
deriving DecidableEq, Repr

/-- Message content of a duplicate-detection reply: the content may be
missing (`null`), fail `JSON.parse` (which throws, caught by the outer
try/catch), or parse to a `DupReply`. -/
inductive DupContent where
  | missing
  | unparseable
  | parsed (d : DupReply)

/-- Return value of `AiService.detectDuplicateExpense` — never a thrown
error. -/
structure DuplicateCheck where
  success : Bool
  isDuplicate : Bool
  confidence : Option ℚ
  reason : Option String
  error : Option String
deriving DecidableEq, Repr

namespace AiService

/-- Model of `AiService.detectDuplicateExpense`: unconfigured client fails
softly; an empty candidate list short-circuits to a successful
non-duplicate; otherwise errors out of the retry stack, missing content and
JSON-parse failures all become `success: false` via the try/catch, and a
parsed reply is returned as a success. -/
def detectDuplicateExpense (env : AiCallEnv DupContent)
    (existingExpenses : List Expense) : DuplicateCheck :=
  if !env.configured then
    { success := false, isDuplicate := false, confidence := none, reason := none,
      error := some "AI service not configured" }
  else if existingExpenses.isEmpty then
    { success := true, isDuplicate := false, confidence := none, reason := none,
      error := none }
  else
    match withRetry env.run with
    | .error e =>
      { success := false, isDuplicate := false, confidence := none, reason := none,
        error := some e }
    | .ok .missing =>
      { success := false, isDuplicate := false, confidence := none, reason := none,
        error := some "No response from AI" }
    | .ok .unparseable =>
      { success := false, isDuplicate := false, confidence := none, reason := none,
        error := some "Unexpected token in JSON" }
    | .ok (.parsed d) =>
      { success := true, isDuplicate := d.isDuplicate, confidence := some d.confidence,
        reason := some d.reason, error := none }

end AiService

/-- The `CreateExpenseDto` (status is optional and, being spread into the
new document, passes through to the created expense). -/
structure CreateDto where
  team : Nat
  description : String
  amount : ℚ
  category : String
  date : ℤ
  status : Option ExpenseStatus
  submittedBy : Option Approver
deriving DecidableEq, Repr

/-- The response assembled by `ExpenseService.create`. -/
structure CreateResponse where
  expense : Expense
  aiSuggestion : Option String
  duplicateWarning : Option (ℚ × String)
deriving DecidableEq, Repr

/-- Thirty days in milliseconds, the duplicate-candidate window. -/
def thirtyDaysMs : ℤ := 30 * 24 * 60 * 60 * 1000

namespace ExpenseService

/-- Model of `ExpenseService.create`: verify the team exists (400 if not),
ask the advisory service for a category suggestion, fetch up to ten of the
team's expenses from the trailing 30 days and run duplicate detection on
them, then persist the new expense.  A failed suggestion leaves
`aiSuggestedCategory` null; a failed duplicate check stores
`isDuplicate: false` and a null reason.  `catEnv`/`dupEnv` are the advisory
environments of the two calls, `now` the current time and `newId` the id
Mongo assigns. -/
def create (catEnv : AiCallEnv String) (dupEnv : AiCallEnv DupContent)
    (now : ℤ) (newId : Nat) (s : Store) (dto : CreateDto) :
    Except ServiceError (Store × CreateResponse) :=
  match s.findTeam dto.team with
  | none => .error (.badRequest "Team not found")
  | some _team =>
    let aiSuggestion := AiService.suggestExpenseCategory catEnv
    let aiSuggestedCategory :=
      if aiSuggestion.success then aiSuggestion.category else none
    let recentExpenses :=
      (s.expenses.filter
        (fun e => e.team == dto.team && decide (e.date ≥ now - thirtyDaysMs))).take 10
    let duplicateCheck := AiService.detectDuplicateExpense dupEnv recentExpenses
    let expense : Expense :=
      { id := newId
        team := dto.team
        description := dto.description
        amount := dto.amount
        category := dto.category
        aiSuggestedCategory := aiSuggestedCategory
        status := dto.status.getD ExpenseStatus.pending
        submittedBy := dto.submittedBy
        approvedBy := none
        date := dto.date
        isDuplicate := if duplicateCheck.success then duplicateCheck.isDuplicate else false
        duplicateReason := if duplicateCheck.success then duplicateCheck.reason else none }
    let s1 := s.addExpense expense
    .ok (s1,
      { expense := expense
        aiSuggestion := if aiSuggestion.success then aiSuggestion.category else none
        duplicateWarning :=
          if duplicateCheck.success && duplicateCheck.isDuplicate then
            some (duplicateCheck.confidence.getD 0, (duplicateCheck.reason.getD ""))
          else none })

end ExpenseService

/-- Spec-side definition (from the claim wording, for comparison with the
code): the sum of `amount` over all expenses belonging to the team whose
status is approved. -/
def specApprovedSum (s : Store) (teamId : Nat) : ℚ :=
  ((s.expenses.filter
      (fun e => e.team == teamId && e.status == ExpenseStatus.approved)).map
    (fun e => e.amount)).sum

/-- Spec-side definition (from the claim wording, for comparison with the
code): at most one alert per evaluation — `hundred_percent` if utilization
is at least 100 and that latch is unset, otherwise `eighty_percent` if
utilization is at least 80 and that latch is unset; utilization per the
spec rule that a zero budget yields zero utilization. -/
def specEvaluateAlerts (team : Team) : Option AlertType :=
  let utilization := budgetUtilization team
  if utilization ≥ 100 ∧ team.budgetAlerts.hundredPercentSent = false then
    some .hundred_percent
  else if utilization ≥ 80 ∧ team.budgetAlerts.eightyPercentSent = false then
    some .eighty_percent
  else none

/-- The spending invariant of the spec: the team's cached `currentSpending`
equals the sum of the amounts of its approved expenses. -/
def SpendingInvariant (s : Store) : Prop :=
  ∀ t ∈ s.teams, t.currentSpending = specApprovedSum s t.id

/-- Bridge between the code's recomputation and the claim wording: the
`foldl` total of `TeamService.calculateCurrentSpending` is the sum of the
amounts of the team's approved expenses (filter conditions commuted). -/
theorem calculateCurrentSpending_eq_specApprovedSum (s : Store) (teamId : Nat) :
    TeamService.calculateCurrentSpending s teamId = specApprovedSum s teamId := by
  unfold TeamService.calculateCurrentSpending specApprovedSum
  have hfilter :
      s.expenses.filter (fun e => e.status == ExpenseStatus.approved && e.team == teamId)
        = s.expenses.filter (fun e => e.team == teamId && e.status == ExpenseStatus.approved) := by
    apply List.filter_congr
    intro e _
    simp [Bool.and_comm]
  rw [hfilter]
  generalize s.expenses.filter (fun e => e.team == teamId && e.status == ExpenseStatus.approved) = l
  induction l using List.reverseRecOn with
  | nil => simp
  | append_singleton xs x ih => simp [List.foldl_append, ih]


/-- Decidable form of the spending invariant. -/
def spendingConsistent (s : Store) : Bool :=
  s.teams.all (fun t => t.currentSpending == specApprovedSum s t.id)

/-- The boolean and propositional forms of the spending invariant agree. -/
theorem spendingConsistent_iff (s : Store) :
    spendingConsistent s = true ↔ SpendingInvariant s := by
  simp [spendingConsistent, SpendingInvariant, List.all_eq_true]

/-- A team at 10 percent utilization with both latches clear. -/
def sampleTeam : Team :=
  { id := 0, name := "Engineering", budget := 1000, currentSpending := 100,
    budgetAlerts := { eightyPercentSent := false, hundredPercentSent := false } }

/-- An approved expense of amount 100 owned by `sampleTeam`. -/
def sampleExpense : Expense :=
  { id := 0, team := 0, description := "Business lunch", amount := 100,
    category := "Meals", aiSuggestedCategory := none, status := .approved,
    submittedBy := none,
    approvedBy := some { name := "Jane", email := "jane@company.com" },
    date := 0, isDuplicate := false, duplicateReason := none }

/-- A store satisfying the spending invariant: one team, one approved
expense of amount 100, cached spending 100. -/
def sampleStore : Store := { teams := [sampleTeam], expenses := [sampleExpense] }

/-- Email environment in which every dispatch succeeds. -/
def envOk : EmailEnv := { sendOk := true }

/-- Email environment in which every dispatch fails (for example the
Resend API key is not configured, or the provider rejects the message). -/
def envFail : EmailEnv := { sendOk := false }

/-- An update request that edits only the description. -/
def dtoDescriptionOnly : UpdateDto :=
  { UpdateDto.empty with description := some "Team offsite" }

/-- C1.  The claim fails on the code: updating only the `description` of an
approved expense (no status in the request) trips the unapprove ledger
block — `oldStatus === 'approved' && updateExpenseDto.status !== 'approved'`
holds when the requested status is `undefined` — subtracting the amount
from the team.  Starting from the consistent `sampleStore`, the expense
stays approved with amount 100 but the cached spending drops to 0 while
the approved-expense sum is still 100: the persisted invariant breaks. -/
theorem update_without_status_change_breaks_spending_invariant :
    (ExpenseService.update envOk sampleStore 0 dtoDescriptionOnly).map
      (fun r => (r.expense.status, r.expense.amount,
        r.store.teams.map Team.currentSpending, specApprovedSum r.store 0,
        spendingConsistent r.store))
      = Except.ok (ExpenseStatus.approved, (100 : ℚ), [(0 : ℚ)], (100 : ℚ), false)
    ∧ spendingConsistent sampleStore = true := by
  constructor
  · norm_num [ExpenseService.update, dtoDescriptionOnly, UpdateDto.empty,
      applyFieldEdits, sampleStore, sampleExpense, sampleTeam, Store.findExpense,
      Store.findTeam, Store.saveExpense, Store.saveTeam, budgetAlertChain,
      utilizationJs, jsDivQ, JsNum.mulQ, JsNum.geQ, JsNum.ltQ,
      specApprovedSum, spendingConsistent, Except.map, List.find?,
      show ("Team offsite" : String) ≠ "" from by decide,
      show (none : Option ExpenseStatus) ≠ some ExpenseStatus.approved from by decide,
      show (none : Option ExpenseStatus) ≠ some ExpenseStatus.rejected from by decide]
  · norm_num [spendingConsistent, sampleStore, sampleExpense, sampleTeam,
      specApprovedSum]

/-- An update request that edits only the amount, to 150. -/
def dtoAmount150 : UpdateDto := { UpdateDto.empty with amount := some 150 }

/-- C2.  The claim fails on the code: an amount-only update (100 → 150) of
an approved expense leaves it approved, but instead of applying the delta
+50 the unapprove block fires (no status in the request) and subtracts the
new amount, clamped at zero: the team's spending becomes
`max 0 (100 - 150) = 0`, not the claimed `100 + (150 - 100) = 150`. -/
theorem amount_edit_on_approved_expense_subtracts_instead_of_delta :
    (ExpenseService.update envOk sampleStore 0 dtoAmount150).map
      (fun r => (r.expense.status, r.expense.amount,
        r.store.teams.map Team.currentSpending))
      = Except.ok (ExpenseStatus.approved, (150 : ℚ), [(0 : ℚ)])
    ∧ sampleTeam.currentSpending + (150 - sampleExpense.amount) = (150 : ℚ)
    ∧ (0 : ℚ) ≠ 150 := by
  refine ⟨?_, by norm_num [sampleTeam, sampleExpense], by norm_num⟩
  norm_num [ExpenseService.update, dtoAmount150, UpdateDto.empty,
    applyFieldEdits, sampleStore, sampleExpense, sampleTeam, Store.findExpense,
    Store.findTeam, Store.saveExpense, Store.saveTeam, budgetAlertChain,
    utilizationJs, jsDivQ, JsNum.mulQ, JsNum.geQ, JsNum.ltQ,
    Except.map, List.find?,
    show (none : Option ExpenseStatus) ≠ some ExpenseStatus.approved from by decide,
    show (none : Option ExpenseStatus) ≠ some ExpenseStatus.rejected from by decide]

/-- The bulk request rejecting expense 0. -/
def dtoBulkReject : BulkActionDto :=
  { expenseIds := [0], action := .reject,
    approvedBy := { name := "Boss", email := "boss@company.com" } }

/-- The single-update request rejecting the expense. -/
def dtoRejectSingle : UpdateDto :=
  { UpdateDto.empty with
    status := some .rejected,
    approvedBy := some { name := "Boss", email := "boss@company.com" } }

/-- C3.  The bulk path of the claim fails on the code: a bulk decision with
action reject on an approved expense of amount 100 sets `approvedBy` and
the rejected status, but `bulkAction` has no ledger branch for rejection,
so the team's spending stays 100 instead of dropping to
`max 0 (100 - 100) = 0`.  The single-update path does subtract, as the
last conjunct shows. -/
theorem bulk_reject_of_approved_expense_keeps_team_spending :
    (ExpenseService.bulkAction envOk sampleStore dtoBulkReject).map
      (fun r => (r.1.teams.map Team.currentSpending,
        (r.1.findExpense 0).map (fun e => (e.status, e.approvedBy.isSome))))
      = Except.ok ([(100 : ℚ)], some (ExpenseStatus.rejected, true))
    ∧ max 0 (sampleTeam.currentSpending - sampleExpense.amount) = (0 : ℚ)
    ∧ (ExpenseService.update envOk sampleStore 0 dtoRejectSingle).map
        (fun r => r.store.teams.map Team.currentSpending)
      = Except.ok [(0 : ℚ)] := by
  refine ⟨?_, by norm_num [sampleTeam, sampleExpense], ?_⟩
  · norm_num [ExpenseService.bulkAction, ExpenseService.bulkStep, dtoBulkReject,
      sampleStore, sampleExpense, sampleTeam, Store.findExpense, Store.findTeam,
      Store.saveExpense, Store.saveTeam, Except.map, List.find?, List.filter,
      EmailService.sendExpenseApprovalNotification,
      show BulkActionKind.reject ≠ BulkActionKind.approve from by decide]
  · norm_num [ExpenseService.update, dtoRejectSingle, UpdateDto.empty,
      applyFieldEdits, sampleStore, sampleExpense, sampleTeam, Store.findExpense,
      Store.findTeam, Store.saveExpense, Store.saveTeam, budgetAlertChain,
      utilizationJs, jsDivQ, JsNum.mulQ, JsNum.geQ, JsNum.ltQ,
      Except.map, List.find?, approverOrSystem,
      EmailService.sendExpenseApprovalNotification,
      show (some ExpenseStatus.rejected : Option ExpenseStatus) ≠ some ExpenseStatus.approved from by decide]

/-- A team at 120 percent utilization whose 100-percent latch is already
set but whose 80-percent latch is not. -/
def teamOverLatched : Team :=
  { id := 0, name := "Platform", budget := 100, currentSpending := 120,
    budgetAlerts := { eightyPercentSent := false, hundredPercentSent := true } }

/-- C4, counterexample.  On the team-list path
(`TeamService.checkAndSendBudgetAlerts`) the 80-percent branch additionally
requires `utilization < 100`: at 120 percent utilization with the
100-percent latch set and the 80-percent latch clear, the claim's selection
rule returns `eighty_percent`, but the call dispatches nothing and changes
no latch. -/
theorem team_list_alert_check_skips_unlatched_eighty_at_over_hundred :
    TeamService.checkAndSendBudgetAlerts envOk teamOverLatched
      = (teamOverLatched, [])
    ∧ specEvaluateAlerts teamOverLatched = some AlertType.eighty_percent := by
  constructor
  · norm_num [TeamService.checkAndSendBudgetAlerts, utilizationJs, jsDivQ,
      JsNum.mulQ, JsNum.geQ, JsNum.ltQ, teamOverLatched]
  · norm_num [specEvaluateAlerts, budgetUtilization, teamOverLatched]

/-- A team exactly at 100 percent utilization with both latches clear. -/
def teamAtHundred : Team :=
  { id := 0, name := "Design", budget := 100, currentSpending := 100,
    budgetAlerts := { eightyPercentSent := false, hundredPercentSent := false } }

/-- C5.  The claim fails on the code: `sendBudgetAlert` catches every
failure internally and returns `success: false` without throwing, and no
caller inspects that flag, so a failed dispatch (the recorded event
carries `delivered = false`) still sets and persists the
`hundredPercentSent` latch — the alert is permanently suppressed instead of
staying eligible for the next evaluation.  Both the team-list path and the
update/budget-status chain behave this way. -/
theorem failed_alert_dispatch_still_sets_latch :
    TeamService.checkAndSendBudgetAlerts envFail teamAtHundred
      = ({ teamAtHundred with
            budgetAlerts := { eightyPercentSent := false, hundredPercentSent := true } },
        [Email.budgetAlert 0 AlertType.hundred_percent false])
    ∧ budgetAlertChain envFail teamAtHundred
      = ({ teamAtHundred with
            budgetAlerts := { eightyPercentSent := false, hundredPercentSent := true } },
        [Email.budgetAlert 0 AlertType.hundred_percent false]) := by
  constructor
  · norm_num [TeamService.checkAndSendBudgetAlerts, utilizationJs, jsDivQ,
      JsNum.mulQ, JsNum.geQ, JsNum.ltQ, teamAtHundred, envFail,
      EmailService.sendBudgetAlert]
  · norm_num [budgetAlertChain, utilizationJs, jsDivQ,
      JsNum.mulQ, JsNum.geQ, JsNum.ltQ, teamAtHundred, envFail,
      EmailService.sendBudgetAlert]

/-- A team with a zero budget and positive spending, latches clear. -/
def zeroBudgetTeam : Team :=
  { id := 0, name := "Skunkworks", budget := 0, currentSpending := 50,
    budgetAlerts := { eightyPercentSent := false, hundredPercentSent := false } }

/-- C6, counterexample.  Only the schema virtual guards `budget = 0`; the
service paths divide unguarded, so a zero-budget team with spending 50 has
JS utilization `Infinity` — not 0 — and the team-list path dispatches the
100-percent alert for it.  (No error is raised; the divergence is the
nonzero utilization and the alert.) -/
theorem zero_budget_positive_spending_gives_infinite_utilization_alert :
    utilizationJs zeroBudgetTeam.currentSpending zeroBudgetTeam.budget = JsNum.posInf
    ∧ utilizationJs zeroBudgetTeam.currentSpending zeroBudgetTeam.budget ≠ JsNum.num 0
    ∧ budgetUtilization zeroBudgetTeam = 0
    ∧ TeamService.checkAndSendBudgetAlerts envOk zeroBudgetTeam
      = ({ zeroBudgetTeam with
            budgetAlerts := { eightyPercentSent := false, hundredPercentSent := true } },
        [Email.budgetAlert 0 AlertType.hundred_percent true]) := by
  refine ⟨?_, ?_, ?_, ?_⟩
  · norm_num [utilizationJs, jsDivQ, JsNum.mulQ, zeroBudgetTeam]
  · norm_num [utilizationJs, jsDivQ, JsNum.mulQ, zeroBudgetTeam,
      show JsNum.posInf ≠ JsNum.num 0 from by decide]
  · norm_num [budgetUtilization, zeroBudgetTeam]
  · norm_num [TeamService.checkAndSendBudgetAlerts, utilizationJs, jsDivQ,
      JsNum.mulQ, JsNum.geQ, JsNum.ltQ, zeroBudgetTeam, envOk,
      EmailService.sendBudgetAlert]

/-- The update request that approves an expense. -/
def dtoApprove : UpdateDto :=
  { UpdateDto.empty with
    status := some .approved,
    approvedBy := some { name := "Boss", email := "boss@company.com" } }

/-- The update request that sets the status back to pending. -/
def dtoSetPending : UpdateDto :=
  { UpdateDto.empty with status := some .pending }

/-- The sample store with its expense still pending and no decision
recorded. -/
def pendingStore : Store :=
  { teams := [sampleTeam],
    expenses := [{ sampleExpense with status := .pending, approvedBy := none }] }

/-- C9, counterexample.  Approving a pending expense sets `approvedBy`;
updating its status back to pending does not clear it: the final document
is pending with `approvedBy` still present, refuting the only-if direction
of the claimed invariant. -/
theorem expense_returned_to_pending_retains_approvedBy :
    ((ExpenseService.update envOk pendingStore 0 dtoApprove).bind
        (fun r1 => ExpenseService.update envOk r1.store 0 dtoSetPending)).map
      (fun r2 => (r2.store.findExpense 0).map
        (fun e => (e.status, e.approvedBy.isSome)))
      = Except.ok (some (ExpenseStatus.pending, true)) := by
  norm_num [ExpenseService.update, dtoApprove, dtoSetPending, UpdateDto.empty,
    applyFieldEdits, pendingStore, sampleExpense, sampleTeam, Store.findExpense,
    Store.findTeam, Store.saveExpense, Store.saveTeam, budgetAlertChain,
    utilizationJs, jsDivQ, JsNum.mulQ, JsNum.geQ, JsNum.ltQ, approverOrSystem,
    Except.map, Except.bind, List.find?, EmailService.sendExpenseApprovalNotification,
    show (some ExpenseStatus.approved : Option ExpenseStatus) ≠ some ExpenseStatus.pending from by decide,
    show (some ExpenseStatus.pending : Option ExpenseStatus) ≠ some ExpenseStatus.approved from by decide,
    show (some ExpenseStatus.pending : Option ExpenseStatus) ≠ some ExpenseStatus.rejected from by decide]

/-- C10, counterexample.  `TeamService.findAll` over a store holding only
`teamOverLatched` — utilization 120 percent with the 80-percent latch
clear, so an unlatched threshold is met at the moment of the read —
dispatches no alert and leaves the store unchanged, because the team-list
check requires `utilization < 100` for the eighty alert. -/
theorem team_findAll_skips_eligible_alert_dispatch :
    TeamService.findAll envOk { teams := [teamOverLatched], expenses := [] }
      = ({ teams := [teamOverLatched], expenses := [] }, [teamOverLatched], [])
    ∧ budgetUtilization teamOverLatched ≥ 80
    ∧ teamOverLatched.budgetAlerts.eightyPercentSent = false := by
  refine ⟨?_, by norm_num [budgetUtilization, teamOverLatched], by norm_num [teamOverLatched]⟩
  norm_num [TeamService.findAll, TeamService.checkAndSendBudgetAlerts,
    utilizationJs, jsDivQ, JsNum.mulQ, JsNum.geQ, JsNum.ltQ, teamOverLatched]

/-- With a positive budget the unguarded JS utilization is the finite
rational `spending / budget * 100`. -/
theorem utilizationJs_pos_budget (sp b : ℚ) (hb : 0 < b) :
    utilizationJs sp b = JsNum.num (sp / b * 100) := by
  simp [utilizationJs, jsDivQ, JsNum.mulQ, ne_of_gt hb]

/-- With a positive budget the unguarded JS utilization agrees with the
guarded schema virtual. -/
theorem utilizationJs_eq_budgetUtilization (t : Team) (hb : 0 < t.budget) :
    utilizationJs t.currentSpending t.budget = JsNum.num (budgetUtilization t) := by
  rw [utilizationJs_pos_budget _ _ hb, budgetUtilization, if_pos hb]

/-- A JS value that compares at least `c` does not also compare below `c`. -/
theorem JsNum.ltQ_eq_false_of_geQ (u : JsNum) (c : ℚ) (h : u.geQ c = true) :
    u.ltQ c = false := by
  cases u <;> simp_all [JsNum.geQ, JsNum.ltQ, not_lt, le_of_lt]

/-- Saving an expense does not touch the teams collection. -/
theorem Store.saveExpense_teams (s : Store) (e : Expense) :
    (s.saveExpense e).teams = s.teams := rfl

/-- Saving a team does not touch the expenses collection. -/
theorem Store.saveTeam_expenses (s : Store) (t : Team) :
    (s.saveTeam t).expenses = s.expenses := rfl

/-- A successful team lookup returns a document carrying the looked-up id. -/
theorem Store.findTeam_id (s : Store) (id : Nat) (t : Team)
    (h : s.findTeam id = some t) : t.id = id := by
  have := List.find?_some h
  simpa using this

/-- Looking a team up after saving one with the same id yields the saved
document exactly when the lookup previously succeeded. -/
theorem Store.findTeam_saveTeam (s : Store) (t : Team) (id : Nat) (hid : t.id = id) :
    (s.saveTeam t).findTeam id = (s.findTeam id).map (fun _ => t) := by
  unfold Store.findTeam Store.saveTeam
  induction s.teams with
  | nil => rfl
  | cons u l ih =>
    by_cases hu : u.id = t.id
    · simp [List.find?_cons, hu, hid]
    · have : (u.id == t.id) = false := by simp [hu]
      by_cases hq : u.id = id
      · exact absurd (hid ▸ hq) hu
      · simp only [List.map_cons, List.find?_cons, this, Bool.false_eq_true, if_false]
        have hq' : (u.id == id) = false := by simp [hq]
        simpa [hq'] using ih

/-- The alert chain never changes the id or the spending of the team it
latches. -/
theorem budgetAlertChain_id_spending (env : EmailEnv) (t : Team) :
    (budgetAlertChain env t).1.id = t.id
    ∧ (budgetAlertChain env t).1.currentSpending = t.currentSpending := by
  unfold budgetAlertChain
  dsimp only
  split_ifs <;> simp

/-- Field edits never touch `approvedBy`. -/
theorem applyFieldEdits_approvedBy (dto : UpdateDto) (e : Expense) :
    (applyFieldEdits dto e).approvedBy = e.approvedBy := by
  obtain ⟨d, a, c, dt, st, ab⟩ := dto
  unfold applyFieldEdits
  rcases d with _ | d <;> rcases a with _ | a <;> rcases c with _ | c <;>
    rcases dt with _ | dt <;> rcases st with _ | st <;> simp <;> split_ifs <;> rfl

/-- The alert selection the update / budget-status chain implements: the
`if / else if` conditions of `budgetAlertChain`, without the side
effects. -/
def codeEvaluateAlerts (team : Team) : Option AlertType :=
  let u := utilizationJs team.currentSpending team.budget
  if u.geQ 100 && !team.budgetAlerts.hundredPercentSent then some .hundred_percent
  else if u.geQ 80 && !team.budgetAlerts.eightyPercentSent then some .eighty_percent
  else none

/-- The alert selection the team-list path implements: as above but the
eighty branch additionally requires `utilization < 100`. -/
def teamListEvaluateAlerts (team : Team) : Option AlertType :=
  let u := utilizationJs team.currentSpending team.budget
  if u.geQ 100 && !team.budgetAlerts.hundredPercentSent then some .hundred_percent
  else if u.geQ 80 && !team.budgetAlerts.eightyPercentSent && u.ltQ 100 then
    some .eighty_percent
  else none

/-- Set the latch corresponding to a selected alert. -/
def applyAlertLatch (t : Team) : Option AlertType → Team
  | some AlertType.hundred_percent =>
    { t with budgetAlerts := { t.budgetAlerts with hundredPercentSent := true } }
  | some AlertType.eighty_percent =>
    { t with budgetAlerts := { t.budgetAlerts with eightyPercentSent := true } }
  | none => t

/-- The update / budget-status alert chain dispatches exactly the alert its
selection picks and sets exactly that latch. -/
theorem budgetAlertChain_eq (env : EmailEnv) (t : Team) :
    budgetAlertChain env t
      = (applyAlertLatch t (codeEvaluateAlerts t),
        (codeEvaluateAlerts t).toList.map
          (fun a => Email.budgetAlert t.id a env.sendOk)) := by
  unfold budgetAlertChain codeEvaluateAlerts
  dsimp only
  split_ifs <;> simp [applyAlertLatch, EmailService.sendBudgetAlert]

/-- The team-list alert check dispatches exactly the alert its selection
picks and sets exactly that latch. -/
theorem checkAndSendBudgetAlerts_eq (env : EmailEnv) (t : Team) :
    TeamService.checkAndSendBudgetAlerts env t
      = (applyAlertLatch t (teamListEvaluateAlerts t),
        (teamListEvaluateAlerts t).toList.map
          (fun a => Email.budgetAlert t.id a env.sendOk)) := by
  unfold TeamService.checkAndSendBudgetAlerts teamListEvaluateAlerts
  dsimp only
  by_cases h1 : ((utilizationJs t.currentSpending t.budget).geQ 100
      && !t.budgetAlerts.hundredPercentSent) = true
  · have hge : (utilizationJs t.currentSpending t.budget).geQ 100 = true := by
      simp only [Bool.and_eq_true] at h1
      exact h1.1
    have hlt := JsNum.ltQ_eq_false_of_geQ _ _ hge
    simp [h1, hlt, applyAlertLatch, EmailService.sendBudgetAlert]
  · by_cases h2 : ((utilizationJs t.currentSpending t.budget).geQ 80
        && !t.budgetAlerts.eightyPercentSent
        && (utilizationJs t.currentSpending t.budget).ltQ 100) = true
    · simp [h1, h2, applyAlertLatch, EmailService.sendBudgetAlert]
    · simp [h1, h2, applyAlertLatch]

/-- For positive budgets the chain selection coincides with the spec's
`evaluateAlerts` rule. -/
theorem codeEvaluateAlerts_eq_spec (team : Team) (hb : 0 < team.budget) :
    codeEvaluateAlerts team = specEvaluateAlerts team := by
  unfold codeEvaluateAlerts specEvaluateAlerts
  dsimp only
  rw [utilizationJs_eq_budgetUtilization team hb]
  by_cases h100 : 100 ≤ budgetUtilization team <;>
    by_cases hh : team.budgetAlerts.hundredPercentSent <;>
    by_cases h80 : 80 ≤ budgetUtilization team <;>
    by_cases he : team.budgetAlerts.eightyPercentSent <;>
    simp [JsNum.geQ, h100, hh, h80, he, ge_iff_le]

/-- For positive budgets the team-list selection is the spec's rule except
that it returns nothing when utilization is at least 100 and the hundred
latch is already set. -/
theorem teamListEvaluateAlerts_eq_spec (team : Team) (hb : 0 < team.budget) :
    teamListEvaluateAlerts team
      = if 100 ≤ budgetUtilization team ∧ team.budgetAlerts.hundredPercentSent = true
        then none else specEvaluateAlerts team := by
  unfold teamListEvaluateAlerts specEvaluateAlerts
  dsimp only
  rw [utilizationJs_eq_budgetUtilization team hb]
  by_cases h100 : 100 ≤ budgetUtilization team <;>
    by_cases hh : team.budgetAlerts.hundredPercentSent <;>
    by_cases he : team.budgetAlerts.eightyPercentSent <;>
    by_cases h80 : 80 ≤ budgetUtilization team <;>
    simp [JsNum.geQ, JsNum.ltQ, h100, hh, h80, he, ge_iff_le, not_le.mp]

/-- C4, amended.  Every alert-evaluation call dispatches at most one alert,
and thresholds are inclusive.  On the expense-update and get-budget-status
chain the selection is exactly the claimed rule (hundred if utilization is
at least 100 and unlatched, otherwise eighty if at least 80 and unlatched);
on the team-list path the eighty alert additionally requires utilization
below 100, so a call at utilization of at least 100 with the hundred latch
already set dispatches nothing.  Stated for positive budgets, where the JS
utilization is the finite `spending / budget * 100`. -/
theorem alert_dispatch_at_most_one_and_selection_per_path
    (env : EmailEnv) (team : Team) (hb : 0 < team.budget) :
    (budgetAlertChain env team).2.length ≤ 1
    ∧ (TeamService.checkAndSendBudgetAlerts env team).2.length ≤ 1
    ∧ (budgetAlertChain env team).2
        = (specEvaluateAlerts team).toList.map
            (fun a => Email.budgetAlert team.id a env.sendOk)
    ∧ (TeamService.checkAndSendBudgetAlerts env team).2
        = (if 100 ≤ budgetUtilization team
              ∧ team.budgetAlerts.hundredPercentSent = true
            then []
            else (specEvaluateAlerts team).toList.map
              (fun a => Email.budgetAlert team.id a env.sendOk)) := by
  refine ⟨?_, ?_, ?_, ?_⟩
  · rw [budgetAlertChain_eq]
    cases codeEvaluateAlerts team <;> simp
  · rw [checkAndSendBudgetAlerts_eq]
    cases teamListEvaluateAlerts team <;> simp
  · rw [budgetAlertChain_eq, codeEvaluateAlerts_eq_spec team hb]
  · rw [checkAndSendBudgetAlerts_eq, teamListEvaluateAlerts_eq_spec team hb]
    split_ifs <;> simp

/-- Witness for the amended alert-selection theorem at `sampleTeam`
(budget 1000). -/
theorem alert_dispatch_selection_witness :
    0 < sampleTeam.budget
    ∧ ((budgetAlertChain envOk sampleTeam).2.length ≤ 1
      ∧ (TeamService.checkAndSendBudgetAlerts envOk sampleTeam).2.length ≤ 1
      ∧ (budgetAlertChain envOk sampleTeam).2
          = (specEvaluateAlerts sampleTeam).toList.map
              (fun a => Email.budgetAlert sampleTeam.id a envOk.sendOk)
      ∧ (TeamService.checkAndSendBudgetAlerts envOk sampleTeam).2
          = (if 100 ≤ budgetUtilization sampleTeam
                ∧ sampleTeam.budgetAlerts.hundredPercentSent = true
              then []
              else (specEvaluateAlerts sampleTeam).toList.map
                (fun a => Email.budgetAlert sampleTeam.id a envOk.sendOk))) :=
  ⟨by norm_num [sampleTeam],
    alert_dispatch_at_most_one_and_selection_per_path envOk sampleTeam
      (by norm_num [sampleTeam])⟩

/-- C6, amended.  The schema virtual `budgetUtilization` guards the zero
budget and returns 0; the service paths compute the unguarded JS division,
which for a positive budget agrees with the virtual but for a zero budget
yields `Infinity` when spending is positive (so such a team trips the
100-percent comparisons) and `NaN` when spending is zero.  No path raises
an error — all outcomes are values. -/
theorem utilization_guarded_virtual_vs_unguarded_service_paths (t : Team) :
    (0 < t.budget →
      utilizationJs t.currentSpending t.budget = JsNum.num (budgetUtilization t))
    ∧ (t.budget = 0 → budgetUtilization t = 0)
    ∧ (t.budget = 0 → 0 < t.currentSpending →
        utilizationJs t.currentSpending t.budget = JsNum.posInf)
    ∧ (t.budget = 0 → t.currentSpending = 0 →
        utilizationJs t.currentSpending t.budget = JsNum.nan) := by
  refine ⟨fun hb => utilizationJs_eq_budgetUtilization t hb,
    fun hb => ?_, fun hb hs => ?_, fun hb hs => ?_⟩
  · simp [budgetUtilization, hb]
  · norm_num [utilizationJs, jsDivQ, JsNum.mulQ, hb, hs]
  · norm_num [utilizationJs, jsDivQ, JsNum.mulQ, hb, hs]

/-- Witness for the amended utilization theorem at `zeroBudgetTeam`
(budget 0, spending 50). -/
theorem utilization_guarded_vs_unguarded_witness :
    zeroBudgetTeam.budget = 0
    ∧ 0 < zeroBudgetTeam.currentSpending
    ∧ budgetUtilization zeroBudgetTeam = 0
    ∧ utilizationJs zeroBudgetTeam.currentSpending zeroBudgetTeam.budget
        = JsNum.posInf :=
  ⟨by norm_num [zeroBudgetTeam], by norm_num [zeroBudgetTeam],
    (utilization_guarded_virtual_vs_unguarded_service_paths zeroBudgetTeam).2.1
      (by norm_num [zeroBudgetTeam]),
    (utilization_guarded_virtual_vs_unguarded_service_paths zeroBudgetTeam).2.2.1
      (by norm_num [zeroBudgetTeam]) (by norm_num [zeroBudgetTeam])⟩

/-- Folding the bulk step with target status approved over expenses that
are all already approved never touches the teams collection (the ledger
branch requires the previous status not to be approved). -/
theorem bulk_fold_teams_of_all_approved (env : EmailEnv) (ap : Approver)
    (l : List Expense) (hl : ∀ e ∈ l, e.status = ExpenseStatus.approved) :
    ∀ acc : Store × List Email,
      (l.foldl (ExpenseService.bulkStep env ExpenseStatus.approved ap) acc).1.teams
        = acc.1.teams := by
  induction l with
  | nil => intro acc; rfl
  | cons x xs ih =>
    intro acc
    rw [List.foldl_cons, ih (fun e he => hl e (List.mem_cons_of_mem _ he))]
    have hx : x.status = ExpenseStatus.approved := hl x (List.mem_cons_self _ _)
    unfold ExpenseService.bulkStep
    dsimp only
    rw [if_neg (by simp [hx])]
    rfl

/-- An update request that re-issues approval with no other field. -/
def dtoApproveOnly : UpdateDto := { UpdateDto.empty with status := some .approved }

/-- C7.  Re-issuing the approved transition on an already-approved expense
leaves every team's spending untouched, on the single-update path and on
the bulk path (for any batch whose targeted expenses are all already
approved): both ledger branches test the status held before the write, so
an approved-to-approved write matches neither. -/
theorem reissuing_approved_transition_preserves_team_spending
    (env : EmailEnv) (s : Store) (id : Nat) (dto : UpdateDto) (e : Expense)
    (hfind : s.findExpense id = some e)
    (happ : e.status = ExpenseStatus.approved)
    (hdto : dto.status = some ExpenseStatus.approved) :
    (∃ r, ExpenseService.update env s id dto = .ok r ∧ r.store.teams = s.teams)
    ∧ (∀ dtoB : BulkActionDto, dtoB.action = .approve →
        (∀ e2 ∈ s.expenses, dtoB.expenseIds.contains e2.id = true →
          e2.status = ExpenseStatus.approved) →
        ∀ out, ExpenseService.bulkAction env s dtoB = .ok out →
          out.1.teams = s.teams) := by
  constructor
  · unfold ExpenseService.update
    rw [hfind]
    refine ⟨_, rfl, ?_⟩
    simp [happ, hdto, Store.saveExpense]
  · intro dtoB hact hall out hok
    unfold ExpenseService.bulkAction at hok
    rw [hact] at hok
    dsimp only at hok
    by_cases hlen :
        (s.expenses.filter (fun e2 => dtoB.expenseIds.contains e2.id)).length
          ≠ dtoB.expenseIds.length
    · rw [if_pos hlen] at hok
      cases hok
    · rw [if_neg hlen] at hok
      injection hok with h
      subst h
      exact bulk_fold_teams_of_all_approved env dtoB.approvedBy _
        (fun e2 he2 =>
          hall e2 (List.mem_filter.mp he2).1 (List.mem_filter.mp he2).2)
        (s, [])

/-- Witness for the re-issue theorem at `sampleStore`. -/
theorem reissuing_approved_transition_witness :
    sampleStore.findExpense 0 = some sampleExpense
    ∧ sampleExpense.status = ExpenseStatus.approved
    ∧ dtoApproveOnly.status = some ExpenseStatus.approved
    ∧ ((∃ r, ExpenseService.update envOk sampleStore 0 dtoApproveOnly = .ok r
          ∧ r.store.teams = sampleStore.teams)
      ∧ (∀ dtoB : BulkActionDto, dtoB.action = .approve →
          (∀ e2 ∈ sampleStore.expenses, dtoB.expenseIds.contains e2.id = true →
            e2.status = ExpenseStatus.approved) →
          ∀ out, ExpenseService.bulkAction envOk sampleStore dtoB = .ok out →
            out.1.teams = sampleStore.teams)) :=
  ⟨rfl, rfl, rfl,
    reissuing_approved_transition_preserves_team_spending envOk sampleStore 0
      dtoApproveOnly sampleExpense rfl rfl rfl⟩

/-- An advisory environment for the category call that is inside the
rate-limit cooldown window: every call short-circuits with the
temporarily-unavailable error. -/
def catFailEnv : AiCallEnv String :=
  { configured := true,
    run := { inCooldown := true, attempts := fun _ => .rateLimitError } }

/-- An advisory environment for the duplicate call whose provider returns a
rate-limit error on every attempt, exhausting the retries. -/
def dupFailEnv : AiCallEnv DupContent :=
  { configured := true,
    run := { inCooldown := false, attempts := fun _ => .rateLimitError } }

/-- A create request for the sample team. -/
def dtoCreate : CreateDto :=
  { team := 0, description := "Client dinner", amount := 5, category := "Meals",
    date := 0, status := none, submittedBy := none }

/-- C8.  When both advisory calls fail (any combination of unconfigured
client, open cooldown window, exhausted retries, or other thrown errors —
all of which surface as `success: false`, never as an exception), creation
still succeeds: the expense is persisted with `aiSuggestedCategory` unset,
`isDuplicate` false and no duplicate reason, and `create` returns ok.  The
last two conjuncts show that the cooldown short-circuit and an
all-rate-limited retry run are among the failures converted to
`success: false`. -/
theorem advisory_failure_never_blocks_expense_creation
    (catEnv : AiCallEnv String) (dupEnv : AiCallEnv DupContent)
    (now : ℤ) (newId : Nat) (s : Store) (dto : CreateDto) (t : Team)
    (hteam : s.findTeam dto.team = some t)
    (hcat : (AiService.suggestExpenseCategory catEnv).success = false)
    (hdup : (AiService.detectDuplicateExpense dupEnv
        ((s.expenses.filter (fun e => e.team == dto.team
            && decide (e.date ≥ now - thirtyDaysMs))).take 10)).success = false) :
    (∃ s1 resp, ExpenseService.create catEnv dupEnv now newId s dto = .ok (s1, resp)
      ∧ s1 = s.addExpense resp.expense
      ∧ resp.expense.aiSuggestedCategory = none
      ∧ resp.expense.isDuplicate = false
      ∧ resp.expense.duplicateReason = none)
    ∧ (∀ env2 : AiCallEnv String, env2.configured = true →
        env2.run.inCooldown = true →
        (AiService.suggestExpenseCategory env2).success = false)
    ∧ (∀ env3 : AiCallEnv String,
        (∀ n, env3.run.attempts n = AiCallOutcome.rateLimitError) →
        (AiService.suggestExpenseCategory env3).success = false) := by
  refine ⟨?_, ?_, ?_⟩
  · unfold ExpenseService.create
    rw [hteam]
    dsimp only
    simp only [hcat, hdup, Bool.false_eq_true, Bool.false_and, if_false]
    refine ⟨_, _, rfl, ?_, ?_, ?_, ?_⟩ <;> rfl
  · intro env2 hconf hcd
    simp [AiService.suggestExpenseCategory, AiService.withRetry, hconf, hcd]
  · intro env3 hall
    by_cases hc : env3.configured
    · by_cases hcd : env3.run.inCooldown
      · simp [AiService.suggestExpenseCategory, AiService.withRetry, hc, hcd]
      · simp [AiService.suggestExpenseCategory, AiService.withRetry, withRetryGo,
          hc, hcd, hall]
    · simp [AiService.suggestExpenseCategory, hc]

/-- Witness for the advisory-failure theorem: cooldown on the category
call, exhausted retries on the duplicate call, sample team and store. -/
theorem advisory_failure_witness :
    sampleStore.findTeam dtoCreate.team = some sampleTeam
    ∧ (AiService.suggestExpenseCategory catFailEnv).success = false
    ∧ (AiService.detectDuplicateExpense dupFailEnv
        ((sampleStore.expenses.filter (fun e => e.team == dtoCreate.team
            && decide (e.date ≥ 0 - thirtyDaysMs))).take 10)).success = false
    ∧ ((∃ s1 resp, ExpenseService.create catFailEnv dupFailEnv 0 1 sampleStore dtoCreate
          = .ok (s1, resp)
        ∧ s1 = sampleStore.addExpense resp.expense
        ∧ resp.expense.aiSuggestedCategory = none
        ∧ resp.expense.isDuplicate = false
        ∧ resp.expense.duplicateReason = none)
      ∧ (∀ env2 : AiCallEnv String, env2.configured = true →
          env2.run.inCooldown = true →
          (AiService.suggestExpenseCategory env2).success = false)
      ∧ (∀ env3 : AiCallEnv String,
          (∀ n, env3.run.attempts n = AiCallOutcome.rateLimitError) →
          (AiService.suggestExpenseCategory env3).success = false)) :=
  ⟨rfl, rfl, rfl,
    advisory_failure_never_blocks_expense_creation catFailEnv dupFailEnv 0 1
      sampleStore dtoCreate sampleTeam rfl rfl rfl⟩

/-- The store after one bulk step replaces exactly the documents carrying
the processed expense's id by the rewritten document; the team write, when
it happens, does not touch the expenses collection. -/
theorem bulkStep_expenses (env : EmailEnv) (ns : ExpenseStatus) (ap : Approver)
    (acc : Store × List Email) (x : Expense) :
    (ExpenseService.bulkStep env ns ap acc x).1.expenses
      = acc.1.expenses.map (fun u => if u.id == x.id then
          { x with
            status := ns,
            approvedBy := some { name := ap.name, email := ap.email } }
          else u) := by
  unfold ExpenseService.bulkStep
  dsimp only
  split_ifs
  · split <;> rfl
  · rfl

/-- Folding bulk steps over a list of fetched documents: every expense in
the resulting store whose id is targeted has `approvedBy` set, provided
every targeted document in the starting store is either already set or
still waiting in the list. -/
theorem bulk_fold_approvedBy (env : EmailEnv) (ns : ExpenseStatus) (ap : Approver)
    (ids : List Nat) :
    ∀ (l : List Expense) (acc : Store × List Email),
      (∀ e2 ∈ acc.1.expenses, e2.id ∈ ids →
        e2.approvedBy.isSome = true ∨ ∃ f ∈ l, f.id = e2.id) →
      ∀ e2 ∈ (l.foldl (ExpenseService.bulkStep env ns ap) acc).1.expenses,
        e2.id ∈ ids → e2.approvedBy.isSome = true := by
  intro l
  induction l with
  | nil =>
    intro acc h e2 he2 hid
    rcases h e2 he2 hid with h' | ⟨f, hf, _⟩
    · exact h'
    · cases hf
  | cons x xs ih =>
    intro acc h
    rw [List.foldl_cons]
    apply ih
    intro e2 he2 hid
    rw [bulkStep_expenses] at he2
    rcases List.mem_map.mp he2 with ⟨u, hu, rfl⟩
    by_cases hx : (u.id == x.id) = true
    · simp [hx]
    · simp only [hx, Bool.false_eq_true, if_false] at hid ⊢
      rcases h u hu hid with h' | ⟨f, hf, hfid⟩
      · exact Or.inl h'
      · rcases List.mem_cons.mp hf with rfl | hfxs
        · exact absurd (by simp [hfid] : (u.id == f.id) = true) hx
        · exact Or.inr ⟨f, hfxs, hfid⟩

/-- C9, amended.  `approvedBy`, once present, is never cleared: any single
update returns a document whose `approvedBy` is still set (so an expense
returned to pending keeps it, and status pending does not imply an absent
`approvedBy`); a decision transition through update always sets it; and
after a successful bulk action every targeted document has it set. -/
theorem approvedBy_set_by_decisions_and_never_cleared
    (env : EmailEnv) (s : Store) (id : Nat) (dto : UpdateDto) (e : Expense)
    (r : UpdateResult)
    (hfind : s.findExpense id = some e)
    (hok : ExpenseService.update env s id dto = .ok r) :
    (e.approvedBy.isSome = true → r.expense.approvedBy.isSome = true)
    ∧ (dto.status ≠ some e.status
        ∧ (dto.status = some ExpenseStatus.approved
          ∨ dto.status = some ExpenseStatus.rejected) →
        r.expense.approvedBy.isSome = true)
    ∧ (∀ (dtoB : BulkActionDto) (out : Store × List Email × Nat),
        ExpenseService.bulkAction env s dtoB = .ok out →
        ∀ e2 ∈ out.1.expenses, e2.id ∈ dtoB.expenseIds →
          e2.approvedBy.isSome = true) := by
  have hrexp : r.expense
      = if dto.status ≠ some e.status
          ∧ (dto.status = some ExpenseStatus.approved
            ∨ dto.status = some ExpenseStatus.rejected) then
          { applyFieldEdits dto e with
            approvedBy := some (approverOrSystem dto.approvedBy) }
        else applyFieldEdits dto e := by
    unfold ExpenseService.update at hok
    rw [hfind] at hok
    dsimp only at hok
    injection hok with h
    rw [← h]
  refine ⟨?_, ?_, ?_⟩
  · intro hsome
    rw [hrexp]
    split_ifs
    · simp
    · rw [applyFieldEdits_approvedBy]
      exact hsome
  · intro hdec
    rw [hrexp, if_pos hdec]
    simp
  · intro dtoB out hok2 e2 he2 hid
    unfold ExpenseService.bulkAction at hok2
    dsimp only at hok2
    by_cases hlen :
        (s.expenses.filter (fun e3 => dtoB.expenseIds.contains e3.id)).length
          ≠ dtoB.expenseIds.length
    · rw [if_pos hlen] at hok2
      cases hok2
    · rw [if_neg hlen] at hok2
      injection hok2 with h
      subst h
      refine bulk_fold_approvedBy env _ dtoB.approvedBy dtoB.expenseIds _ (s, [])
        ?_ e2 he2 hid
      intro e3 he3 hid3
      refine Or.inr ⟨e3, List.mem_filter.mpr ⟨he3, ?_⟩, rfl⟩
      simpa using hid3

/-- The literal result of setting the sample approved expense back to
pending: the unapprove block clamps the team's spending and `approvedBy`
survives. -/
def pendingUpdateResult : UpdateResult :=
  { store :=
      { teams := [{ sampleTeam with currentSpending := 0 }],
        expenses := [{ sampleExpense with status := .pending }] },
    expense := { sampleExpense with status := .pending },
    emails := [] }

/-- Evaluation of the set-pending update on the sample store. -/
theorem pendingUpdate_eval :
    ExpenseService.update envOk sampleStore 0 dtoSetPending
      = .ok pendingUpdateResult := by
  norm_num [ExpenseService.update, dtoSetPending, UpdateDto.empty, applyFieldEdits,
    sampleStore, sampleExpense, sampleTeam, Store.findExpense, Store.findTeam,
    Store.saveExpense, Store.saveTeam, budgetAlertChain, utilizationJs, jsDivQ,
    JsNum.mulQ, JsNum.geQ, JsNum.ltQ, List.find?, pendingUpdateResult,
    show (some ExpenseStatus.pending : Option ExpenseStatus) ≠ some ExpenseStatus.approved from by decide,
    show (some ExpenseStatus.pending : Option ExpenseStatus) ≠ some ExpenseStatus.rejected from by decide]

/-- Witness for the approvedBy theorem: the sample approved expense sent
back to pending. -/
theorem approvedBy_never_cleared_witness :
    sampleStore.findExpense 0 = some sampleExpense
    ∧ ExpenseService.update envOk sampleStore 0 dtoSetPending = .ok pendingUpdateResult
    ∧ ((sampleExpense.approvedBy.isSome = true →
          pendingUpdateResult.expense.approvedBy.isSome = true)
      ∧ (dtoSetPending.status ≠ some sampleExpense.status
          ∧ (dtoSetPending.status = some ExpenseStatus.approved
            ∨ dtoSetPending.status = some ExpenseStatus.rejected) →
          pendingUpdateResult.expense.approvedBy.isSome = true)
      ∧ (∀ (dtoB : BulkActionDto) (out : Store × List Email × Nat),
          ExpenseService.bulkAction envOk sampleStore dtoB = .ok out →
          ∀ e2 ∈ out.1.expenses, e2.id ∈ dtoB.expenseIds →
            e2.approvedBy.isSome = true)) :=
  ⟨rfl, pendingUpdate_eval,
    approvedBy_set_by_decisions_and_never_cleared envOk sampleStore 0 dtoSetPending
      sampleExpense pendingUpdateResult rfl pendingUpdate_eval⟩

/-- The team document with its spending replaced by the recomputed
approved-expense sum, as `getBudgetStatus` persists it before running the
alert chain. -/
def recomputedTeam (s : Store) (id : Nat) (t : Team) : Team :=
  { t with currentSpending := TeamService.calculateCurrentSpending s id }

/-- C10, amended.  The two read paths are not read-only.  A successful
get-budget-status overwrites the persisted `currentSpending` with the
recomputed approved-expense sum, dispatches exactly the alert its
(unguarded-chain) selection picks for the recomputed team, and persists the
corresponding latch on the stored document.  The team-list read likewise
dispatches the alert its selection picks for each team and persists that
latch — where that selection skips the eighty alert at utilization of 100
or more, as the counterexample shows. -/
theorem read_paths_dispatch_alerts_and_overwrite_spending
    (env : EmailEnv) (s : Store) (id : Nat) (t : Team)
    (out : Store × BudgetStatus × List Email)
    (hfind : s.findTeam id = some t)
    (hok : TeamService.getBudgetStatus env s id = .ok out) :
    (∃ t2, out.1.findTeam id = some t2
      ∧ t2.currentSpending = specApprovedSum s id
      ∧ t2 = applyAlertLatch (recomputedTeam s id t)
          (codeEvaluateAlerts (recomputedTeam s id t)))
    ∧ out.2.2 = (codeEvaluateAlerts (recomputedTeam s id t)).toList.map
        (fun a => Email.budgetAlert t.id a env.sendOk)
    ∧ (∀ t3 ∈ s.teams, ∀ a,
        teamListEvaluateAlerts t3 = some a →
        Email.budgetAlert t3.id a env.sendOk ∈ (TeamService.findAll env s).2.2
          ∧ (TeamService.checkAndSendBudgetAlerts env t3).1
              = applyAlertLatch t3 (some a)) := by
  unfold TeamService.getBudgetStatus at hok
  rw [hfind] at hok
  dsimp only at hok
  injection hok with h
  subst h
  have hteam1 : ({ t with currentSpending := TeamService.calculateCurrentSpending s id } : Team)
      = recomputedTeam s id t := rfl
  have hidt : t.id = id := Store.findTeam_id s id t hfind
  have hid1 : (recomputedTeam s id t).id = id := hidt
  have hidc : (budgetAlertChain env (recomputedTeam s id t)).1.id = id :=
    (budgetAlertChain_id_spending env _).1.trans hid1
  refine ⟨⟨(budgetAlertChain env (recomputedTeam s id t)).1, ?_, ?_, ?_⟩, ?_, ?_⟩
  · dsimp only
    simp only [hteam1]
    rw [Store.findTeam_saveTeam _ _ id hidc, Store.findTeam_saveTeam _ _ id hid1,
      hfind]
    rfl
  · rw [(budgetAlertChain_id_spending env _).2]
    exact calculateCurrentSpending_eq_specApprovedSum s id
  · rw [budgetAlertChain_eq]
  · dsimp only
    simp only [hteam1]
    rw [budgetAlertChain_eq]
    rfl
  · intro t3 ht3 a hsel
    constructor
    · unfold TeamService.findAll
      dsimp only
      refine List.mem_flatten.mpr
        ⟨(TeamService.checkAndSendBudgetAlerts env t3).2, ?_, ?_⟩
      · exact List.mem_map.mpr ⟨TeamService.checkAndSendBudgetAlerts env t3,
          List.mem_map.mpr ⟨t3, ht3, rfl⟩, rfl⟩
      · rw [checkAndSendBudgetAlerts_eq, hsel]
        simp
    · rw [checkAndSendBudgetAlerts_eq, hsel]

/-- The literal budget-status payload of the sample team. -/
def sampleBudgetStatus : BudgetStatus :=
  { teamId := 0, teamName := "Engineering", budget := 1000,
    currentSpending := 100, remainingBudget := 900,
    utilizationPercentage := JsNum.num 10, isOverBudget := false,
    isNearBudget := false, eightyPercentSent := false,
    hundredPercentSent := false }

/-- Evaluation of get-budget-status on the sample store (the recomputed
sum coincides with the cached value there, and no alert fires at 10
percent). -/
theorem budgetStatus_eval :
    TeamService.getBudgetStatus envOk sampleStore 0
      = .ok (sampleStore, sampleBudgetStatus, []) := by
  norm_num [TeamService.getBudgetStatus, TeamService.calculateCurrentSpending,
    sampleStore, sampleExpense, sampleTeam, Store.findTeam, Store.saveTeam,
    budgetAlertChain, utilizationJs, jsDivQ, JsNum.mulQ, JsNum.geQ, JsNum.ltQ,
    List.find?, List.filter, sampleBudgetStatus]

/-- Witness for the read-path theorem at the sample store. -/
theorem read_paths_witness :
    sampleStore.findTeam 0 = some sampleTeam
    ∧ TeamService.getBudgetStatus envOk sampleStore 0
        = .ok (sampleStore, sampleBudgetStatus, [])
    ∧ ((∃ t2, (sampleStore, sampleBudgetStatus,
          ([] : List Email)).1.findTeam 0 = some t2
        ∧ t2.currentSpending = specApprovedSum sampleStore 0
        ∧ t2 = applyAlertLatch (recomputedTeam sampleStore 0 sampleTeam)
            (codeEvaluateAlerts (recomputedTeam sampleStore 0 sampleTeam)))
      ∧ (sampleStore, sampleBudgetStatus, ([] : List Email)).2.2
          = (codeEvaluateAlerts (recomputedTeam sampleStore 0 sampleTeam)).toList.map
              (fun a => Email.budgetAlert sampleTeam.id a envOk.sendOk)
      ∧ (∀ t3 ∈ sampleStore.teams, ∀ a,
          teamListEvaluateAlerts t3 = some a →
          Email.budgetAlert t3.id a envOk.sendOk
              ∈ (TeamService.findAll envOk sampleStore).2.2
            ∧ (TeamService.checkAndSendBudgetAlerts envOk t3).1
                = applyAlertLatch t3 (some a))) :=
  ⟨rfl, budgetStatus_eval,
    read_paths_dispatch_alerts_and_overwrite_spending envOk sampleStore 0
      sampleTeam (sampleStore, sampleBudgetStatus, []) rfl budgetStatus_eval⟩
